import Mathlib

/-!
Verification of the anima geometry-cache exporter (`anima/render/arnold/h2a.py`),
the Maya environment helpers (`anima/dcc/mayaEnv/__init__.py`), the edit-list
validators (`anima/edit.py`) and the Resolve shot tools
(`anima/env/resolve/shot_tools.py`).

Byte buffers are modelled as lists of natural numbers below 256, and encoded
ASCII text as lists of character codes (naturals below 128); the newline
character is the code 10.
-/

namespace Anima

/-- Modelled from the spec: the module `anima.render.arnold.base85` (providing
`arnold_b85_encode`) is imported by `h2a.py` but its source file is not among
the provided sources.  Spec §4.1: the encoder converts a byte buffer whose
length is divisible by 4 into printable text, packing each 4-byte group
(big-endian) into 5 characters drawn from an 85-character alphabet; the
alphabet here is the contiguous printable range starting at code 33, standing
in for the format's own (injective) 85-character table. -/
def arnold_b85_encode : List Nat → List Nat
  | b0 :: b1 :: b2 :: b3 :: rest =>
    let n := ((b0 * 256 + b1) * 256 + b2) * 256 + b3
    (33 + n / 52200625 % 85) :: (33 + n / 614125 % 85) :: (33 + n / 7225 % 85) ::
      (33 + n / 85 % 85) :: (33 + n % 85) :: arnold_b85_encode rest
  | _ => []

/-- Modelled from the spec: the paired decoder of `anima.render.arnold.base85`
(not among the provided sources).  Each 5-character group is re-read as a
base-85 number and split back into 4 big-endian bytes. -/
def arnold_b85_decode : List Nat → List Nat
  | c0 :: c1 :: c2 :: c3 :: c4 :: rest =>
    let n := ((((c0 - 33) * 85 + (c1 - 33)) * 85 + (c2 - 33)) * 85 + (c3 - 33)) * 85 + (c4 - 33)
    n / 16777216 % 256 :: n / 65536 % 256 :: n / 256 % 256 :: n % 256 :: arnold_b85_decode rest
  | _ => []

theorem b85_digits_recompose (n : Nat) (hn : n < 4437053125) :
    ((((n / 52200625 % 85) * 85 + n / 614125 % 85) * 85 + n / 7225 % 85) * 85 +
        n / 85 % 85) * 85 + n % 85 = n := by
  have e1 : n / 85 / 85 = n / 7225 := by rw [Nat.div_div_eq_div_mul]
  have e2 : n / 7225 / 85 = n / 614125 := by rw [Nat.div_div_eq_div_mul]
  have e3 : n / 614125 / 85 = n / 52200625 := by rw [Nat.div_div_eq_div_mul]
  omega

theorem arnold_b85_roundtrip :
    ∀ b : List Nat, (∀ x ∈ b, x < 256) → b.length % 4 = 0 →
      arnold_b85_decode (arnold_b85_encode b) = b
  | [], _, _ => rfl
  | [_], _, hlen => by simp at hlen
  | [_, _], _, hlen => by simp at hlen
  | [_, _, _], _, hlen => by simp at hlen
  | b0 :: b1 :: b2 :: b3 :: rest, hb, hlen => by
    have h0 : b0 < 256 := hb b0 (by simp)
    have h1 : b1 < 256 := hb b1 (by simp)
    have h2 : b2 < 256 := hb b2 (by simp)
    have h3 : b3 < 256 := hb b3 (by simp)
    have hlen' : rest.length % 4 = 0 := by
      simp only [List.length_cons] at hlen
      omega
    have hrest : arnold_b85_decode (arnold_b85_encode rest) = rest :=
      arnold_b85_roundtrip rest (fun x hx => hb x (by simp [hx])) hlen'
    simp only [arnold_b85_encode, arnold_b85_decode, hrest, Nat.add_sub_cancel_left,
      List.cons.injEq, and_true]
    rw [b85_digits_recompose (((b0 * 256 + b1) * 256 + b2) * 256 + b3) (by omega)]
    have e1 : (((b0 * 256 + b1) * 256 + b2) * 256 + b3) / 256 / 256 =
        (((b0 * 256 + b1) * 256 + b2) * 256 + b3) / 65536 := by
      rw [Nat.div_div_eq_div_mul]
    have e2 : (((b0 * 256 + b1) * 256 + b2) * 256 + b3) / 65536 / 256 =
        (((b0 * 256 + b1) * 256 + b2) * 256 + b3) / 16777216 := by
      rw [Nat.div_div_eq_div_mul]
    refine ⟨?_, ?_, ?_, ?_⟩ <;> omega

theorem arnold_b85_encode_ge_33 :
    ∀ b : List Nat, ∀ x ∈ arnold_b85_encode b, 33 ≤ x
  | b0 :: b1 :: b2 :: b3 :: rest, x, hx => by
    simp only [arnold_b85_encode, List.mem_cons] at hx
    rcases hx with h | h | h | h | h | h
    · omega
    · omega
    · omega
    · omega
    · omega
    · exact arnold_b85_encode_ge_33 rest x h
  | [], x, hx => by simp [arnold_b85_encode] at hx
  | [_], x, hx => by simp [arnold_b85_encode] at hx
  | [_, _], x, hx => by simp [arnold_b85_encode] at hx
  | [_, _, _], x, hx => by simp [arnold_b85_encode] at hx

/-- `h2a.py` lines 297-298, 507, 518, 539, 551: the call
`re.sub("(.{500})", "\\1\n", encoded, 0)` inserts a newline after every
complete run of 500 characters.  The regex class `.` does not match a newline,
and every input at these call sites is freshly base85-encoded text, which
contains no newline; on such input the substitution appends the code 10 after
each full 500-character chunk and leaves the remainder untouched. -/
def re_sub_500 (s : List Nat) : List Nat :=
  (((List.range (s.length / 500)).map
      fun i => (s.drop (i * 500)).take 500 ++ [10]).flatten) ++
    s.drop (s.length / 500 * 500)

/-- Splits a character-code list into its newline-separated lines. -/
def linesOf : List Nat → List (List Nat)
  | [] => [[]]
  | c :: rest =>
    if c = 10 then [] :: linesOf rest
    else
      match linesOf rest with
      | [] => [[c]]
      | l :: ls => (c :: l) :: ls

/-- Drops every newline code, recovering the un-chunked payload. -/
def stripNL (s : List Nat) : List Nat := s.filter fun c => c ≠ 10

theorem linesOf_ne_nil : ∀ s : List Nat, linesOf s ≠ []
  | [] => by simp [linesOf]
  | c :: rest => by
    simp only [linesOf]
    split
    · simp
    · split
      · simp
      · simp

theorem linesOf_append_no_nl (a b : List Nat) (ha : ∀ c ∈ a, c ≠ 10) :
    linesOf (a ++ b) = (a ++ (linesOf b).headI) :: (linesOf b).tail := by
  induction a with
  | nil =>
    cases hb : linesOf b with
    | nil => exact absurd hb (linesOf_ne_nil b)
    | cons l ls => simp [hb]
  | cons c a ih =>
    have hc : c ≠ 10 := ha c (by simp)
    have ih' := ih fun x hx => ha x (by simp [hx])
    simp only [List.cons_append, linesOf, if_neg hc, List.append_eq, ih']

theorem linesOf_chunks (chunks : List (List Nat)) (tail : List Nat)
    (hch : ∀ ch ∈ chunks, ∀ c ∈ ch, c ≠ 10) (ht : ∀ c ∈ tail, c ≠ 10) :
    linesOf ((chunks.map fun ch => ch ++ [10]).flatten ++ tail) = chunks ++ [tail] := by
  induction chunks with
  | nil =>
    simp only [List.map_nil, List.flatten_nil, List.nil_append]
    induction tail with
    | nil => simp [linesOf]
    | cons c t ih =>
      have hc : c ≠ 10 := ht c (by simp)
      have ih' := ih fun x hx => ht x (by simp [hx])
      simp only [linesOf, if_neg hc, ih']
  | cons ch chunks ih =>
    have hch0 : ∀ c ∈ ch, c ≠ 10 := hch ch (by simp)
    have ih' := ih fun x hx => hch x (by simp [hx])
    have : ch ++ [10] ++ ((chunks.map fun ch => ch ++ [10]).flatten ++ tail) =
        ch ++ (10 :: ((chunks.map fun ch => ch ++ [10]).flatten ++ tail)) := by
      simp
    simp only [List.map_cons, List.flatten_cons, List.append_assoc, this,
      linesOf_append_no_nl _ _ hch0, linesOf, if_pos rfl, ih']
    simpa using ih'

theorem re_sub_500_lines (s : List Nat) (hs : ∀ c ∈ s, c ≠ 10) :
    linesOf (re_sub_500 s) =
      ((List.range (s.length / 500)).map fun i => (s.drop (i * 500)).take 500) ++
        [s.drop (s.length / 500 * 500)] := by
  unfold re_sub_500
  rw [show ((List.range (s.length / 500)).map
        fun i => (s.drop (i * 500)).take 500 ++ [10]) =
      (((List.range (s.length / 500)).map fun i => (s.drop (i * 500)).take 500).map
        fun ch => ch ++ [10]) by simp]
  exact linesOf_chunks _ _
    (by
      intro ch hch c hc
      simp only [List.mem_map, List.mem_range] at hch
      obtain ⟨i, _, rfl⟩ := hch
      exact hs c (List.mem_of_mem_drop (List.mem_of_mem_take hc)))
    (fun c hc => hs c (List.mem_of_mem_drop hc))

theorem re_sub_500_line_le (s : List Nat) (hs : ∀ c ∈ s, c ≠ 10) :
    ∀ l ∈ linesOf (re_sub_500 s), l.length ≤ 500 := by
  intro l hl
  rw [re_sub_500_lines s hs] at hl
  rcases List.mem_append.mp hl with h | h
  · simp only [List.mem_map, List.mem_range] at h
    obtain ⟨i, _, rfl⟩ := h
    simp [List.length_take]
  · simp only [List.mem_singleton] at h
    subst h
    have h1 := Nat.div_add_mod s.length 500
    have h2 := Nat.mod_lt s.length (show 0 < 500 by norm_num)
    simp only [List.length_drop]
    omega

theorem stripNL_re_sub_500 (s : List Nat) (hs : ∀ c ∈ s, c ≠ 10) :
    stripNL (re_sub_500 s) = s := by
  unfold stripNL re_sub_500
  rw [List.filter_append]
  have h1 : ∀ q : Nat,
      (((List.range q).map fun i => (s.drop (i * 500)).take 500 ++ [10]).flatten).filter
        (fun c => c ≠ 10) = s.take (q * 500) := by
    intro q
    induction q with
    | zero => simp
    | succ q ih =>
      rw [List.range_succ, List.map_append, List.flatten_append]
      simp only [List.map_cons, List.map_nil, List.flatten_cons, List.flatten_nil,
        List.append_nil]
      have hkeep : ((s.drop (q * 500)).take 500).filter (fun c => c ≠ 10) =
          (s.drop (q * 500)).take 500 :=
        List.filter_eq_self.mpr fun a ha => by
          simpa using hs a (List.mem_of_mem_drop (List.mem_of_mem_take ha))
      rw [List.filter_append, ih, List.filter_append, hkeep]
      simp only [List.filter_cons, List.filter_nil]
      rw [if_neg (by simp)]
      rw [List.append_nil, Nat.succ_mul, List.take_add]
  rw [h1, List.filter_eq_self.mpr fun a ha => by simpa using hs a (List.mem_of_mem_drop ha)]
  exact List.take_append_drop _ s

/-- `h2a.py` lines 491-498: `zip(*[iter(point_positions)] * k)` regroups a byte
string into consecutive chunks of `k` bytes, dropping any incomplete final
group; with `k = 0` Python's `zip()` of no iterables yields no groups. -/
def zipChunks (k : Nat) (s : List Nat) : List (List Nat) :=
  (List.range (s.length / k)).map fun i => (s.drop (i * k)).take k

/-- `h2a.py` line 493: `'%s%s%s' % (x[:12], x, x[-12:])` duplicates the first
and last point (12 bytes: three 4-byte floats) of a per-curve chunk. -/
def dupFirstLast (x : List Nat) : List Nat :=
  x.take 12 ++ x ++ x.drop (x.length - 12)

/-- Exceptions the embedded Python code can raise. -/
inductive PyError where
  | zeroDivisionError
  deriving DecidableEq

/-- The parts of the Houdini curve geometry object read by `curves2ass`
(`h2a.py` lines 379-590): the `primitivecount` / `pointcount` intrinsics, the
packed byte strings of the `P`, `pprime`, `uv_u` and `uv_v` attributes, the
packed `width` point attribute when `geo.findPointAttrib('width')` finds one,
and otherwise the concatenation of `struct.pack('f', vertex width)` over all
vertices produced by the fallback per-vertex walk (lines 446-468, whose
intermediate buffer flushes write the packed floats out in order). -/
structure CurvesGeo where
  primitivecount : Nat
  pointcount : Nat
  P : List Nat
  pprime : List Nat
  width_point_attrib : Option (List Nat)
  vertex_width_bytes : List Nat
  uv_u : List Nat
  uv_v : List Nat
  deriving DecidableEq

/-- `h2a.py` lines 565-569: the identity matrix block of the curves template. -/
def curves_matrix : String := "1 0 0 0\n  0 1 0 0\n  0 0 1 0\n  0 0 0 1\n"

/-- The `template_vars` dictionary that `curves2ass` renders into the curves
template (`h2a.py` lines 574-590). -/
structure CurvesAssVars where
  name : String
  curve_count : Nat
  sample_count : Nat
  number_of_points_per_curve : List Nat
  point_count : Nat
  real_point_count : Nat
  radius_count : Nat
  curve_ids : List Nat
  point_positions : List Nat
  radius : List Nat
  uparamcoord : List Nat
  vparamcoord : List Nat
  min_pixel_width : String
  mode : String
  matrix : String
  deriving DecidableEq

/-- `h2a.py` lines 379-594, `curves2ass(node, hair_name, min_pixel_width, mode,
export_motion)`.  In Python 2 `real_point_count / number_of_curves` (line 429)
is integer division and raises `ZeroDivisionError` when the geometry has no
primitives.  `min_pixel_width` and `mode` are only interpolated into the
template text, so they are carried as opaque strings. -/
def curves2ass (geo : CurvesGeo) (node_path : String)
    (min_pixel_width mode : String) (export_motion : Bool) :
    Except PyError CurvesAssVars :=
  let sample_count := if export_motion then 2 else 1
  let number_of_curves := geo.primitivecount
  let real_point_count := geo.pointcount
  let point_count := real_point_count + number_of_curves * 2
  let radius_count := real_point_count
  if number_of_curves = 0 then
    Except.error PyError.zeroDivisionError
  else
    let real_number_of_points_in_one_curve := real_point_count / number_of_curves
    let number_of_points_in_one_curve := real_number_of_points_in_one_curve + 2
    let number_of_points_per_curve :=
      List.replicate number_of_curves number_of_points_in_one_curve
    let curve_ids := List.range number_of_curves
    let radius :=
      match geo.width_point_attrib with
      | some r => r
      | none => geo.vertex_width_bytes
    let point_positions0 := if export_motion then geo.P ++ geo.pprime else geo.P
    let point_positions :=
      ((zipChunks (real_number_of_points_in_one_curve * 4 * 3) point_positions0).map
        dupFirstLast).flatten
    let splitted_point_positions := re_sub_500 (arnold_b85_encode point_positions)
    let sr := re_sub_500 (arnold_b85_encode radius)
    let splitted_radius := if export_motion then sr ++ sr else sr
    let su := re_sub_500 (arnold_b85_encode geo.uv_u)
    let splitted_u := if export_motion then su ++ su else su
    let sv := re_sub_500 (arnold_b85_encode geo.uv_v)
    let splitted_v := if export_motion then sv ++ sv else sv
    let number_of_points_per_curve :=
      if export_motion then number_of_points_per_curve ++ number_of_points_per_curve
      else number_of_points_per_curve
    let matrix := if export_motion then curves_matrix ++ curves_matrix else curves_matrix
    Except.ok
      { name := node_path.replace "/" "_"
        curve_count := number_of_curves
        sample_count := sample_count
        number_of_points_per_curve := number_of_points_per_curve
        point_count := point_count
        real_point_count := real_point_count
        radius_count := radius_count
        curve_ids := curve_ids
        point_positions := splitted_point_positions
        radius := splitted_radius
        uparamcoord := splitted_u
        vparamcoord := splitted_v
        min_pixel_width := min_pixel_width
        mode := mode
        matrix := matrix }

/-- The parts of the Houdini polygon geometry object read by `polygon2ass`
(`h2a.py` lines 140-376): the count intrinsics, for each primitive the list of
point ids of its vertices (in iteration order), and the packed `P` / `pprime`
byte strings. -/
structure PolyGeo where
  primitivecount : Nat
  pointcount : Nat
  vertexcount : Nat
  prims : List (List Nat)
  P : List Nat
  pprime : List Nat
  deriving DecidableEq

/-- `h2a.py` lines 211-242: the counter-based grouping of per-primitive
values.  The counter is incremented after each append and the group is flushed
once it exceeds 500, so full groups hold 501 entries; a non-empty leftover
group is appended at the end (lines 238-242). -/
def chunk501 (xs : List Nat) : List (List Nat) :=
  let st := xs.foldl
    (fun acc x =>
      let cur := acc.2.1 ++ [x]
      let i := acc.2.2 + 1
      if 500 < i then (acc.1 ++ [cur], ([] : List Nat), 0) else (acc.1, cur, i))
    (([] : List (List Nat)), ([] : List Nat), 0)
  if st.2.1 = [] then st.1 else st.1 ++ [st.2.1]

/-- `h2a.py` lines 352-356: the identity matrix block of the polymesh
template. -/
def polygon_matrix : String := "1 0 0 0\n0 1 0 0\n0 0 1 0\n0 0 0 1\n"

/-- The values `polygon2ass` interpolates into the polymesh template
(`h2a.py` lines 360-374). -/
structure PolyAssVars where
  name : String
  point_count : Nat
  vertex_count : Nat
  primitive_count : Nat
  sample_count : Nat
  number_of_points_per_primitive : List (List Nat)
  vertex_ids : List (List Nat)
  point_positions : List Nat
  matrix : String
  deriving DecidableEq

/-- `h2a.py` lines 140-376, `polygon2ass(node, name, export_motion)` up to the
template interpolation.  The per-primitive vertex-count sequence and the
flattened vertex point-id sequence are grouped by the shared counter logic;
the point buffer is `P` (plus `pprime` when motion is exported) base85-encoded
and chunked at 500 characters. -/
def polygon2ass_vars (geo : PolyGeo) (name : String) (export_motion : Bool) :
    PolyAssVars :=
  let sample_count := if export_motion then 2 else 1
  let combined_number_of_points_per_primitive := chunk501 (geo.prims.map List.length)
  let combined_vertex_ids := chunk501 geo.prims.flatten
  let point_positions := if export_motion then geo.P ++ geo.pprime else geo.P
  let splitted_point_positions := re_sub_500 (arnold_b85_encode point_positions)
  let matrix := if export_motion then polygon_matrix ++ polygon_matrix else polygon_matrix
  { name := name
    point_count := geo.pointcount
    vertex_count := geo.vertexcount
    primitive_count := geo.primitivecount
    sample_count := sample_count
    number_of_points_per_primitive := combined_number_of_points_per_primitive
    vertex_ids := combined_vertex_ids
    point_positions := splitted_point_positions
    matrix := matrix }

/-- Renders a character-code list back into a string. -/
def codesToString (s : List Nat) : String := String.mk (s.map Char.ofNat)

/-- `'\n'.join` of groups, each group being `' '.join` of decimal `repr`s
(`h2a.py` lines 271, 336). -/
def joinChunks (chunks : List (List Nat)) : String :=
  String.intercalate "\n" (chunks.map fun ch => String.intercalate " " (ch.map Nat.repr))

/-- `h2a.py` lines 146-165 and 360-376: the polymesh `base_template` rendered
with the computed values (`%` interpolation). -/
def polygon2ass_render (v : PolyAssVars) : String :=
  "\npolymesh\n\x7b\n name " ++ v.name ++ "\n nsides " ++
    Nat.repr v.primitive_count ++ " 1 UINT\n" ++
    joinChunks v.number_of_points_per_primitive ++ "\n vidxs " ++
    Nat.repr v.vertex_count ++ " 1 UINT\n" ++ joinChunks v.vertex_ids ++
    "\n vlist " ++ Nat.repr v.point_count ++ " " ++ Nat.repr v.sample_count ++
    " b85POINT\n" ++ codesToString v.point_positions ++
    "\n smoothing on\n visibility 65535\n sidedness 65535\n receive_shadows on\n self_shadows on\n matrix\n" ++
    v.matrix ++ "\n opaque on\n id 683108022\n\x7d"

/-- `h2a.py` lines 140-376, `polygon2ass` returning the rendered cache text. -/
def polygon2ass (geo : PolyGeo) (name : String) (export_motion : Bool) : String :=
  polygon2ass_render (polygon2ass_vars geo name export_motion)

/-- `h2a.py` lines 115-125: `geometry2ass` computes the `.asstoc` bounding box
from the second geometry input only when `export_motion` is set AND a second
input is connected (`if export_motion and second_input_geo:`); in every other
case it uses the primary geometry's bounds. -/
def geometry2ass_bounding_box {α : Type} (export_motion : Bool)
    (second_input_geo : Option α) (primary_geo_bounds : α) : α :=
  match export_motion, second_input_geo with
  | true, some second => second
  | _, _ => primary_geo_bounds

/-- `mayaEnv/__init__.py` lines 183-251: the fixed `workspace.mel` content
written by `Maya.create_workspace_file`. -/
def maya_workspace_file_content : String :=
    "// Auto Generated by Anima\n" ++
    "workspace -fr \"3dPaintTextures\" \"Outputs/data/3dPaintTextures\";\n" ++
    "workspace -fr \"ASS Export\" \"Outputs/ass\";\n" ++
    "workspace -fr \"ASS\" \"Outputs/ass\";\n" ++
    "workspace -fr \"Alembic\" \"Outputs/alembic\";\n" ++
    "workspace -fr \"BIF\" \"Outputs/data\";\n" ++
    "workspace -fr \"CATIAV4_ATF\" \"Outputs/data\";\n" ++
    "workspace -fr \"CATIAV5_ATF Export\" \"Outputs/data\";\n" ++
    "workspace -fr \"CATIAV5_ATF\" \"Outputs/data\";\n" ++
    "workspace -fr \"DAE_FBX export\" \"Outputs/data\";\n" ++
    "workspace -fr \"DAE_FBX\" \"Outputs/data\";\n" ++
    "workspace -fr \"FBX export\" \"Outputs/geo\";\n" ++
    "workspace -fr \"FBX\" \"Outputs/geo\";\n" ++
    "workspace -fr \"IGES_ATF Export\" \"Outputs/data\";\n" ++
    "workspace -fr \"IGES_ATF\" \"Outputs/data\";\n" ++
    "workspace -fr \"INVENTOR_ATF Export\" \"Outputs/data\";\n" ++
    "workspace -fr \"INVENTOR_ATF\" \"Outputs/data\";\n" ++
    "workspace -fr \"JT_ATF Export\" \"Outputs/data\";\n" ++
    "workspace -fr \"JT_ATF\" \"Outputs/data\";\n" ++
    "workspace -fr \"NX_ATF Export\" \"Outputs/data\";\n" ++
    "workspace -fr \"NX_ATF\" \"Outputs/data\";\n" ++
    "workspace -fr \"OBJ\" \"Outputs/geo\";\n" ++
    "workspace -fr \"OBJexport\" \"Outputs/geo\";\n" ++
    "workspace -fr \"PROE_ATF\" \"Outputs/data\";\n" ++
    "workspace -fr \"SAT_ATF Export\" \"Outputs/data\";\n" ++
    "workspace -fr \"SAT_ATF\" \"Outputs/data\";\n" ++
    "workspace -fr \"STEP_ATF Export\" \"Outputs/data\";\n" ++
    "workspace -fr \"STEP_ATF\" \"Outputs/data\";\n" ++
    "workspace -fr \"STL_ATF Export\" \"Outputs/data\";\n" ++
    "workspace -fr \"STL_ATF\" \"Outputs/data\";\n" ++
    "workspace -fr \"WIRE_ATF Export\" \"Outputs/data\";\n" ++
    "workspace -fr \"WIRE_ATF\" \"Outputs/data\";\n" ++
    "workspace -fr \"alembicCache\" \"Outputs/alembic\";\n" ++
    "workspace -fr \"audio\" \"Outputs/data\";\n" ++
    "workspace -fr \"autoSave\" \"autosave\";\n" ++
    "workspace -fr \"bifrostCache\" \"Outputs/geo/cache\";\n" ++
    "workspace -fr \"clips\" \"Outputs/data\";\n" ++
    "workspace -fr \"depth\" \"Outputs/data/renderData/depth\";\n" ++
    "workspace -fr \"diskCache\" \"Outputs/geo/cache\";\n" ++
    "workspace -fr \"eps\" \"Outputs/data\";\n" ++
    "workspace -fr \"fileCache\" \"Outputs/alembic\";\n" ++
    "workspace -fr \"fluidCache\" \"Outputs/cache/fluid\";\n" ++
    "workspace -fr \"furAttrMap\" \"Outputs/data/renderData/fur/furAttrMap\";\n" ++
    "workspace -fr \"furEqualMap\" \"Outputs/data/renderData/fur/furEqualMap\";\n" ++
    "workspace -fr \"furFiles\" \"Outputs/data/renderData/fur/furFiles\";\n" ++
    "workspace -fr \"furImages\" \"Outputs/data/renderData/fur/furImages\";\n" ++
    "workspace -fr \"furShadowMap\" \"Outputs/data/renderData/fur/furShadowMap\";\n" ++
    "workspace -fr \"illustrator\" \"Outputs/data\";\n" ++
    "workspace -fr \"images\" \"Outputs\";\n" ++
    "workspace -fr \"iprImages\" \"Outputs/data/renderData/iprImages\";\n" ++
    "workspace -fr \"mayaAscii\" \"\";\n" ++
    "workspace -fr \"mayaBinary\" \"\";\n" ++
    "workspace -fr \"mel\" \"Outputs/data\";\n" ++
    "workspace -fr \"move\" \"Outputs/data\";\n" ++
    "workspace -fr \"movie\" \"Outputs/data\";\n" ++
    "workspace -fr \"offlineEdit\" \"Outputs/data\";\n" ++
    "workspace -fr \"particles\" \"Outputs/particles\";\n" ++
    "workspace -fr \"renderData\" \"Outputs/data\";\n" ++
    "workspace -fr \"scene\" \"\";\n" ++
    "workspace -fr \"sceneAssembly\" \"\";\n" ++
    "workspace -fr \"scripts\" \"Outputs/data\";\n" ++
    "workspace -fr \"shaders\" \"Outputs/data/renderData/shaders\";\n" ++
    "workspace -fr \"sound\" \"Outputs/data\";\n" ++
    "workspace -fr \"sourceImages\" \"Outputs/data\";\n" ++
    "workspace -fr \"teClipExports\" \"Outputs/data\";\n" ++
    "workspace -fr \"templates\" \"Outputs/data\";\n" ++
    "workspace -fr \"timeEditor\" \"Outputs/data\";\n" ++
    "workspace -fr \"translatorData\" \"Outputs/data\";\n"

/-- The filesystem state `Maya.create_workspace_file` interacts with at one
workspace root: the content of `<path>/workspace.mel` if that file exists, and
whether the directory containing it exists.  (When the file exists its
directory necessarily exists.) -/
structure WorkspaceFS where
  workspace_mel : Option String
  dir_exists : Bool
  deriving DecidableEq

/-- `mayaEnv/__init__.py` lines 1580-1599, `Maya.create_workspace_file(path)`.
The `os.path.exists(full_path)` test only guards the `os.makedirs` call (whose
`OSError` for an already-existing directory is swallowed); the
`open(full_path, "w")` / `write` always runs, overwriting any existing
`workspace.mel`. -/
def create_workspace_file (fs : WorkspaceFS) : WorkspaceFS :=
  let fs1 :=
    if fs.workspace_mel.isSome then fs
    else { fs with dir_exists := true }
  { fs1 with workspace_mel := some maya_workspace_file_content }

/-- A Python value passed to `DurationMixin._validate_duration`
(`edit.py` lines 79-104): `None`, an `int`, a `float` (modelled exactly as a
rational, since the validator only negates, compares with zero and converts),
or a value of any other class. -/
inductive PyDuration where
  | none
  | int (n : Int)
  | float (x : Rat)
  | other (typeName : String)
  deriving DecidableEq

/-- Exceptions raised by the validators (`TypeError` / `ValueError`). -/
inductive PyExc where
  | typeError
  | valueError
  deriving DecidableEq

/-- `isinstance(duration, (int, float))` (`edit.py` line 86). -/
def pyIsNumber : PyDuration → Bool
  | .int _ => true
  | .float _ => true
  | _ => false

/-- `float(duration)` for a numeric value (`edit.py` line 95). -/
def pyToFloat : PyDuration → Rat
  | .int n => (n : Rat)
  | .float x => x
  | _ => 0

/-- `edit.py` lines 79-104, `DurationMixin._validate_duration(duration)`:
`None` is replaced by `0.0`; a non-`int`/`float` raises `TypeError`; the value
is converted with `float(...)`; a negative result raises `ValueError`;
otherwise the float value is returned (and stored). -/
def validate_duration (duration : PyDuration) : Except PyExc Rat :=
  let duration :=
    match duration with
    | .none => PyDuration.float 0
    | d => d
  if pyIsNumber duration = false then Except.error PyExc.typeError
  else
    let f := pyToFloat duration
    if f < 0 then Except.error PyExc.valueError
    else Except.ok f

/-- Python `\w` for the shot-code regex (`shot_tools.py` line 772), restricted
to its ASCII part: letters, digits and the underscore. -/
def isWordChar (c : Char) : Bool := c.isAlphanum || c == '_'

/-- Python `\d` (ASCII decimal digit). -/
def isDigitChar (c : Char) : Bool := c.isDigit

/-- The character class `[A-Z]`. -/
def isUpperAZ (c : Char) : Bool := 'A' ≤ c && c ≤ 'Z'

/-- Backtracking matcher for the final `_(\d{4})` group of the shot-code
regex followed by arbitrary trailing characters. -/
def shotTail4 (l : List Char) : Bool :=
  match l with
  | c0 :: f1 :: f2 :: f3 :: f4 :: _ =>
    c0 == '_' && isDigitChar f1 && isDigitChar f2 && isDigitChar f3 && isDigitChar f4
  | _ => false

/-- Backtracking matcher for `_(\d{3})_(\d{3}[A-Z]{0,1})_(\d{4})`, the part of
the shot-code regex after the leading `[\w]+` group. -/
def shotSepTail (l : List Char) : Bool :=
  match l with
  | c0 :: d1 :: d2 :: d3 :: c4 :: e1 :: e2 :: e3 :: rest =>
    c0 == '_' && isDigitChar d1 && isDigitChar d2 && isDigitChar d3 &&
    c4 == '_' && isDigitChar e1 && isDigitChar e2 && isDigitChar e3 &&
    (shotTail4 rest ||
      match rest with
      | u :: rest2 => isUpperAZ u && shotTail4 rest2
      | [] => false)
  | _ => false

/-- Backtracking matcher for the full regex
`([\w]+)_(\d{3})_(\d{3}[A-Z]{0,1})_(\d{4})` anchored at the start of the
string (`re.match`): consume one or more word characters, then match the
rest of the pattern; trailing characters are unconstrained. -/
def shotCodeMatch : List Char → Bool
  | [] => false
  | c :: rest => isWordChar c && (shotSepTail rest || shotCodeMatch rest)

/-- `shot_tools.py` lines 768-777, `ShotClip.validate_shot_code`: compile the
regex, `match` it against the shot code, and raise `ValueError` when there is
no match. -/
def validate_shot_code (shot_code : String) : Except PyExc Unit :=
  if shotCodeMatch shot_code.data then Except.ok ()
  else Except.error PyExc.valueError

/-- Modelled from the spec: `DCCBase.check_referenced_versions`
(`anima/dcc/base.py`) is not among the provided sources — `mayaEnv/__init__.py`
lines 1651-1677 only delegate to it via `super()`.  Spec §3 and §8: the scene's
reference graph is a tree of referenced versions; each referenced version
either has a strictly newer published revision (`newer = true`) or not, and
carries its own deeper references as children.  `id` identifies the version. -/
inductive RefTree where
  | node (id : Nat) (newer : Bool) (children : List RefTree)

/-- The version id at the root of a reference subtree. -/
def RefTree.vid : RefTree → Nat
  | .node i _ _ => i

/-- Whether a strictly newer published revision exists for the root version. -/
def RefTree.isNewer : RefTree → Bool
  | .node _ n _ => n

/-- The deeper references of the root version. -/
def RefTree.children : RefTree → List RefTree
  | .node _ _ cs => cs

/-- The classification of one referenced version. -/
inductive RefAction where
  | leave
  | update
  | create
  deriving DecidableEq

mutual

/-- Modelled from the spec: the classification rule of
`check_referenced_versions`.  A version one of whose deeper references is
classified `update` or `create` must itself get a new version (`create`,
propagating upward, spec §3: "the deepest references must be resolved before
their ancestors to guarantee correctness when propagating updates upward");
otherwise a version with a strictly newer published revision is `update`, and
a version with no newer revision is `leave` (spec §8). -/
def refAction : RefTree → RefAction
  | .node _ newer children =>
    if anyNonLeave children then RefAction.create
    else if newer then RefAction.update
    else RefAction.leave

/-- Whether some member of a list of reference subtrees is classified
`update` or `create`. -/
def anyNonLeave : List RefTree → Bool
  | [] => false
  | t :: ts =>
    match refAction t with
    | RefAction.leave => anyNonLeave ts
    | _ => true

end

mutual

/-- Post-order walk of a reference subtree: the deeper references first, then
the root version with its classification — the "deepest to shallowest"
processing order of the spec. -/
def walkTree : RefTree → List (Nat × RefAction)
  | .node i newer children =>
    walkForest children ++ [(i, refAction (.node i newer children))]

/-- Post-order walk of a forest of reference subtrees. -/
def walkForest : List RefTree → List (Nat × RefAction)
  | [] => []
  | t :: ts => walkTree t ++ walkForest ts

end

/-- The dictionary returned by `check_referenced_versions`: exactly the keys
`leave`, `update` and `create`, each holding version ids ordered from the
deepest reference to the shallowest. -/
structure ReferenceResolution where
  leave : List Nat
  update : List Nat
  create : List Nat
  deriving DecidableEq

/-- Modelled from the spec: `check_referenced_versions` classifies every
referenced version of the scene's reference forest and returns the three
lists, each in deepest-first order. -/
def check_referenced_versions (forest : List RefTree) : ReferenceResolution :=
  let w := walkForest forest
  { leave := (w.filter fun p => p.2 == RefAction.leave).map Prod.fst
    update := (w.filter fun p => p.2 == RefAction.update).map Prod.fst
    create := (w.filter fun p => p.2 == RefAction.create).map Prod.fst }

/-- All subtree occurrences (referenced versions) of a reference forest. -/
def subtreesF : List RefTree → List RefTree
  | [] => []
  | .node i newer cs :: ts =>
    RefTree.node i newer cs :: subtreesF cs ++ subtreesF ts

/-! ### Shared helper lemmas -/

theorem except_exists_ok {ε α : Type} (e : Except ε α)
    (h : e.toOption.isSome = true) : ∃ v, e = Except.ok v := by
  cases e with
  | error _ => simp [Except.toOption] at h
  | ok v => exact ⟨v, rfl⟩

theorem arnold_b85_encode_no_nl (b : List Nat) :
    ∀ c ∈ arnold_b85_encode b, c ≠ 10 := fun c hc => by
  have := arnold_b85_encode_ge_33 b c hc
  omega

/-! ### Claim C1 -/

/-- Claim C1: for every byte buffer `b` whose length is a multiple of 4,
decoding the output of the cache base85 encoder (`arnold_b85_encode`, as
invoked on the point, radius and uv payloads of `h2a.py`) with its paired
decoder returns `b` exactly — a byte-exact round trip. -/
theorem C1_b85_roundtrip (b : List Nat) (hb : ∀ x ∈ b, x < 256)
    (hlen : b.length % 4 = 0) :
    arnold_b85_decode (arnold_b85_encode b) = b :=
  arnold_b85_roundtrip b hb hlen

theorem C1_b85_roundtrip_witness :
    (∀ x ∈ ([1, 2, 3, 255, 0, 16, 32, 254] : List Nat), x < 256) ∧
    ([1, 2, 3, 255, 0, 16, 32, 254] : List Nat).length % 4 = 0 ∧
    arnold_b85_decode (arnold_b85_encode [1, 2, 3, 255, 0, 16, 32, 254]) =
      [1, 2, 3, 255, 0, 16, 32, 254] :=
  ⟨by decide, by decide,
    C1_b85_roundtrip [1, 2, 3, 255, 0, 16, 32, 254] (by decide) (by decide)⟩

/-! ### Claim C7 -/

/-- Claim C7 counterexample: with a second geometry input connected but
`export_motion` disabled, `geometry2ass` computes the `.asstoc` bounding box
from the primary geometry (result `1`), not from the second input (`2`) as the
claim states. -/
theorem C7_counterexample :
    geometry2ass_bounding_box false (some (2 : Nat)) 1 = 1 ∧ (1 : Nat) ≠ 2 :=
  ⟨rfl, by decide⟩

/-- Claim C7 (amended): the companion `.asstoc` bounding-box record is
computed from the second geometry input exactly when motion export is enabled
and a second input is present; in every other case (no second input, or motion
export disabled) it is computed from the primary geometry. -/
theorem C7_bounding_box_source {α : Type} (second primary : α) (s : Option α)
    (m : Bool) :
    geometry2ass_bounding_box true (some second) primary = second ∧
    geometry2ass_bounding_box false s primary = primary ∧
    geometry2ass_bounding_box m none primary = primary := by
  refine ⟨rfl, ?_, ?_⟩
  · cases s <;> rfl
  · cases m <;> rfl

/-! ### Claim C8 -/

/-- Claim C8 counterexample: when a `workspace.mel` with different content
already exists, `create_workspace_file` still overwrites it with the fixed
content, so the existing content is not left unchanged. -/
theorem C8_counterexample :
    (create_workspace_file ⟨some "old content", true⟩).workspace_mel =
      some maya_workspace_file_content ∧
    maya_workspace_file_content ≠ "old content" :=
  ⟨rfl, by decide⟩

/-- Claim C8 (amended): `create_workspace_file(path)` always writes the fixed
`workspace.mel` content, overwriting any existing file at `path`; the
`os.path.exists` check only decides whether the missing parent directory is
created first. -/
theorem C8_always_writes (fs : WorkspaceFS) :
    (create_workspace_file fs).workspace_mel = some maya_workspace_file_content ∧
    (create_workspace_file fs).dir_exists =
      (if fs.workspace_mel.isSome then fs.dir_exists else true) := by
  cases fs with
  | mk mel dir => cases mel <;> simp [create_workspace_file]

/-! ### Claim C9 -/

/-- Claim C9: `DurationMixin._validate_duration` accepts `None` and stores
`0.0`; it raises `TypeError` exactly when the value is neither `None` nor an
`int`/`float`; it raises `ValueError` exactly when the value is numeric and
negative; otherwise it stores `float(duration)`. -/
theorem C9_validate_duration (d : PyDuration) :
    (d = PyDuration.none → validate_duration d = Except.ok 0) ∧
    (validate_duration d = Except.error PyExc.typeError ↔
      d ≠ PyDuration.none ∧ pyIsNumber d = false) ∧
    (validate_duration d = Except.error PyExc.valueError ↔
      pyIsNumber d = true ∧ pyToFloat d < 0) ∧
    (pyIsNumber d = true → ¬ pyToFloat d < 0 →
      validate_duration d = Except.ok (pyToFloat d)) := by
  cases d with
  | none => simp [validate_duration, pyIsNumber, pyToFloat]
  | int n =>
    by_cases h : (n : Rat) < 0 <;>
      simp [validate_duration, pyIsNumber, pyToFloat, h]
  | float x =>
    by_cases h : x < 0 <;>
      simp [validate_duration, pyIsNumber, pyToFloat, h]
  | other s => simp [validate_duration, pyIsNumber, pyToFloat]

theorem C9_validate_duration_witness :
    validate_duration PyDuration.none = Except.ok 0 ∧
    validate_duration (PyDuration.float (-1)) = Except.error PyExc.valueError ∧
    validate_duration (PyDuration.other "str") = Except.error PyExc.typeError ∧
    validate_duration (PyDuration.int 3) = Except.ok 3 :=
  ⟨(C9_validate_duration PyDuration.none).1 rfl,
   (C9_validate_duration (PyDuration.float (-1))).2.2.1.mpr
     (by norm_num [pyIsNumber, pyToFloat]),
   (C9_validate_duration (PyDuration.other "str")).2.1.mpr
     (by exact ⟨by simp, by simp [pyIsNumber]⟩),
   (C9_validate_duration (PyDuration.int 3)).2.2.2 (by simp [pyIsNumber])
     (by norm_num [pyToFloat])⟩

/-! ### Claim C4 -/

/-- A curve geometry with zero primitives. -/
def zeroCurvesGeo : CurvesGeo :=
  { primitivecount := 0
    pointcount := 0
    P := []
    pprime := []
    width_point_attrib := none
    vertex_width_bytes := []
    uv_u := []
    uv_v := [] }

/-- A polygon geometry with zero primitives. -/
def zeroPolyGeo : PolyGeo :=
  { primitivecount := 0
    pointcount := 0
    vertexcount := 0
    prims := []
    P := []
    pprime := [] }

/-- Claim C4 counterexample: on curve geometry with zero primitives,
`curves2ass` does not complete — the Python 2 integer division
`real_point_count / number_of_curves` (`h2a.py` line 429) raises
`ZeroDivisionError`. -/
theorem C4_counterexample :
    curves2ass zeroCurvesGeo "/obj/geo1" "0.5" "ribbon" false =
      Except.error PyError.zeroDivisionError := rfl

/-- Claim C4 (amended): for input geometry with zero primitives,
`polygon2ass` completes without error and emits an empty but structurally
valid cache description, but `curves2ass` raises `ZeroDivisionError` (division
by the zero primitive count). -/
theorem C4_zero_primitives :
    (∀ (geo : CurvesGeo) (path mpw mode : String) (motion : Bool),
      geo.primitivecount = 0 →
      curves2ass geo path mpw mode motion = Except.error PyError.zeroDivisionError) ∧
    (∀ (geo : PolyGeo) (name : String),
      geo.primitivecount = 0 → geo.prims = [] → geo.pointcount = 0 →
      geo.vertexcount = 0 → geo.P = [] →
      polygon2ass_vars geo name false =
        { name := name
          point_count := 0
          vertex_count := 0
          primitive_count := 0
          sample_count := 1
          number_of_points_per_primitive := []
          vertex_ids := []
          point_positions := []
          matrix := polygon_matrix } ∧
      polygon2ass geo name false =
        polygon2ass_render
          { name := name
            point_count := 0
            vertex_count := 0
            primitive_count := 0
            sample_count := 1
            number_of_points_per_primitive := []
            vertex_ids := []
            point_positions := []
            matrix := polygon_matrix }) := by
  constructor
  · intro geo path mpw mode motion h
    simp [curves2ass, h]
  · intro geo name h1 h2 h3 h4 h5
    obtain ⟨pc, ptc, vc, prims, P, pprime⟩ := geo
    simp only at h1 h2 h3 h4 h5
    subst h1 h2 h3 h4 h5
    have hv : polygon2ass_vars
        { primitivecount := 0, pointcount := 0, vertexcount := 0, prims := [],
          P := [], pprime := pprime } name false =
        { name := name
          point_count := 0
          vertex_count := 0
          primitive_count := 0
          sample_count := 1
          number_of_points_per_primitive := []
          vertex_ids := []
          point_positions := []
          matrix := polygon_matrix } := by
      simp [polygon2ass_vars, chunk501, re_sub_500, arnold_b85_encode]
    exact ⟨hv, by rw [polygon2ass, hv]⟩

theorem C4_zero_primitives_witness :
    (zeroCurvesGeo.primitivecount = 0 ∧
      curves2ass zeroCurvesGeo "/obj/geo1" "0.5" "ribbon" true =
        Except.error PyError.zeroDivisionError) ∧
    (zeroPolyGeo.primitivecount = 0 ∧
      polygon2ass_vars zeroPolyGeo "mesh1" false =
        { name := "mesh1"
          point_count := 0
          vertex_count := 0
          primitive_count := 0
          sample_count := 1
          number_of_points_per_primitive := []
          vertex_ids := []
          point_positions := []
          matrix := polygon_matrix }) :=
  ⟨⟨rfl, C4_zero_primitives.1 zeroCurvesGeo "/obj/geo1" "0.5" "ribbon" true rfl⟩,
   ⟨rfl, (C4_zero_primitives.2 zeroPolyGeo "mesh1" rfl rfl rfl rfl rfl).1⟩⟩

/-! ### Claim C3 -/

/-- Claim C3: enabling motion export makes both `curves2ass` and
`polygon2ass` declare a sample count of 2 instead of 1, and the matrix block
and the per-curve parameter buffers (`num_points`, `radius`, `uparamcoord`,
`vparamcoord`) are each emitted as two identical concatenated copies of the
single-sample data. -/
theorem C3_motion_doubling :
    (∀ (geo : CurvesGeo) (path mpw mode : String) (v : CurvesAssVars),
      curves2ass geo path mpw mode false = Except.ok v →
      ∃ w, curves2ass geo path mpw mode true = Except.ok w ∧
        v.sample_count = 1 ∧ w.sample_count = 2 ∧
        w.matrix = v.matrix ++ v.matrix ∧
        w.number_of_points_per_curve =
          v.number_of_points_per_curve ++ v.number_of_points_per_curve ∧
        w.radius = v.radius ++ v.radius ∧
        w.uparamcoord = v.uparamcoord ++ v.uparamcoord ∧
        w.vparamcoord = v.vparamcoord ++ v.vparamcoord) ∧
    (∀ (geo : PolyGeo) (name : String),
      (polygon2ass_vars geo name false).sample_count = 1 ∧
      (polygon2ass_vars geo name true).sample_count = 2 ∧
      (polygon2ass_vars geo name true).matrix =
        (polygon2ass_vars geo name false).matrix ++
          (polygon2ass_vars geo name false).matrix) := by
  constructor
  · intro geo path mpw mode v h
    by_cases h0 : geo.primitivecount = 0
    · simp [curves2ass, h0] at h
    · simp only [curves2ass, if_neg h0] at h ⊢
      rw [Except.ok.injEq] at h
      subst h
      exact ⟨_, rfl, rfl, rfl, rfl, rfl, rfl, rfl, rfl⟩
  · intro geo name
    exact ⟨rfl, rfl, rfl⟩

/-- A one-curve geometry with two points, used to instantiate the curve
exporter theorems. -/
def smallCurvesGeo : CurvesGeo :=
  { primitivecount := 1
    pointcount := 2
    P := [0, 0, 128, 63, 0, 0, 0, 64, 0, 0, 64, 64,
          0, 0, 128, 64, 0, 0, 160, 64, 0, 0, 192, 64]
    pprime := [0, 0, 128, 63, 0, 0, 0, 64, 0, 0, 64, 64,
               0, 0, 128, 64, 0, 0, 160, 64, 0, 0, 192, 64]
    width_point_attrib := some [0, 0, 128, 63, 0, 0, 128, 63]
    vertex_width_bytes := []
    uv_u := [0, 0, 0, 63]
    uv_v := [0, 0, 128, 62] }

theorem C3_motion_doubling_witness :
    ∃ v w, curves2ass smallCurvesGeo "/obj/hair" "0.5" "ribbon" false = Except.ok v ∧
      curves2ass smallCurvesGeo "/obj/hair" "0.5" "ribbon" true = Except.ok w ∧
      v.sample_count = 1 ∧ w.sample_count = 2 ∧ w.radius = v.radius ++ v.radius ∧
      (polygon2ass_vars zeroPolyGeo "mesh1" true).sample_count = 2 := by
  obtain ⟨v, hv⟩ :=
    except_exists_ok (curves2ass smallCurvesGeo "/obj/hair" "0.5" "ribbon" false)
      (by decide)
  obtain ⟨w, hw, h1, h2, _, _, hr, _, _⟩ :=
    C3_motion_doubling.1 smallCurvesGeo "/obj/hair" "0.5" "ribbon" v hv
  exact ⟨v, w, hv, hw, h1, h2, hr, (C3_motion_doubling.2 zeroPolyGeo "mesh1").2.1⟩

/-! ### Claim C5 -/

/-- A one-curve geometry with 120 points whose 480-byte radius attribute
encodes to 600 base85 characters, so the chunked radius payload is a 500-char
line followed by a 100-char line. -/
def c5CounterGeo : CurvesGeo :=
  { primitivecount := 1
    pointcount := 120
    P := List.replicate 1440 0
    pprime := List.replicate 1440 0
    width_point_attrib := some (List.replicate 480 0)
    vertex_width_bytes := []
    uv_u := List.replicate 4 0
    uv_v := List.replicate 4 0 }

set_option maxRecDepth 100000 in
/-- Claim C5 counterexample: with motion export enabled, the radius payload
written into the cache text is two concatenated copies of the chunked
single-sample data (`h2a.py` line 521); at the junction the line
`100-char tail ++ 500-char head` has 600 characters, and it is not the final
line (the line lengths are `[500, 600, 100]`), violating the 500-character
bound. -/
theorem C5_counterexample :
    ((curves2ass c5CounterGeo "/obj/hair" "0.5" "ribbon" true).map
      fun v => (linesOf v.radius).map List.length) = Except.ok [500, 600, 100] ∧
    ¬ (600 ≤ 500) :=
  ⟨rfl, by decide⟩

/-- Claim C5 (amended): every singly-chunked base85 payload has all its lines
at most 500 characters long (the final line included): this holds for the
point buffers of both exporters under any motion setting, and for the radius /
uparamcoord / vparamcoord payloads when motion export is off.  When motion
export is on, those three payloads are emitted as two concatenated copies of
the chunked data and the line spanning the junction may exceed 500
characters. -/
theorem C5_chunk_width (geo : CurvesGeo) (pg : PolyGeo)
    (path mpw mode name : String) (motion : Bool) (v : CurvesAssVars)
    (h : curves2ass geo path mpw mode motion = Except.ok v) :
    (∀ l ∈ linesOf v.point_positions, l.length ≤ 500) ∧
    (motion = false →
      (∀ l ∈ linesOf v.radius, l.length ≤ 500) ∧
      (∀ l ∈ linesOf v.uparamcoord, l.length ≤ 500) ∧
      (∀ l ∈ linesOf v.vparamcoord, l.length ≤ 500)) ∧
    (∀ l ∈ linesOf (polygon2ass_vars pg name motion).point_positions,
      l.length ≤ 500) := by
  by_cases h0 : geo.primitivecount = 0
  · simp [curves2ass, h0] at h
  · simp only [curves2ass, if_neg h0] at h
    rw [Except.ok.injEq] at h
    subst h
    refine ⟨?_, ?_, ?_⟩
    · exact re_sub_500_line_le _ (arnold_b85_encode_no_nl _)
    · intro hm
      subst hm
      exact ⟨re_sub_500_line_le _ (arnold_b85_encode_no_nl _),
        re_sub_500_line_le _ (arnold_b85_encode_no_nl _),
        re_sub_500_line_le _ (arnold_b85_encode_no_nl _)⟩
    · exact re_sub_500_line_le _ (arnold_b85_encode_no_nl _)

theorem C5_chunk_width_witness :
    ∃ v, curves2ass smallCurvesGeo "/obj/hair" "0.5" "ribbon" false = Except.ok v ∧
      (∀ l ∈ linesOf v.point_positions, l.length ≤ 500) ∧
      (∀ l ∈ linesOf v.radius, l.length ≤ 500) := by
  obtain ⟨v, hv⟩ :=
    except_exists_ok (curves2ass smallCurvesGeo "/obj/hair" "0.5" "ribbon" false)
      (by decide)
  obtain ⟨hp, hrest, _⟩ :=
    C5_chunk_width smallCurvesGeo zeroPolyGeo "/obj/hair" "0.5" "ribbon" "m" false v hv
  exact ⟨v, hv, hp, (hrest rfl).1⟩

/-! ### Claim C2 -/

theorem mem_of_mem_dupFirstLast {x : Nat} {g : List Nat}
    (hx : x ∈ dupFirstLast g) : x ∈ g := by
  simp only [dupFirstLast, List.mem_append] at hx
  rcases hx with (h | h) | h
  · exact List.mem_of_mem_take h
  · exact h
  · exact List.mem_of_mem_drop h

theorem zipChunks_mem {k : Nat} {s ch : List Nat} (hch : ch ∈ zipChunks k s) :
    ∀ x ∈ ch, x ∈ s := by
  simp only [zipChunks, List.mem_map, List.mem_range] at hch
  obtain ⟨i, _, rfl⟩ := hch
  intro x hx
  exact List.mem_of_mem_drop (List.mem_of_mem_take hx)

theorem flatten_length_mod4 (l : List (List Nat))
    (h : ∀ g ∈ l, g.length % 4 = 0) : l.flatten.length % 4 = 0 := by
  induction l with
  | nil => simp
  | cons g l ih =>
    have hg := h g (by simp)
    have ih' := ih fun g hg => h g (by simp [hg])
    simp only [List.flatten_cons, List.length_append]
    omega

/-- Claim C2: for curve geometry of `c` curves with `n` real points each, the
emitted point buffer contains `n + 2` points (each point is 12 bytes) per
curve — the first and last real point of each curve duplicated at that curve's
start and end (`dupFirstLast`) — and the declared total point count equals the
real point count plus `2 * c`. -/
theorem C2_curve_tangent_duplication (geo : CurvesGeo) (c n : Nat)
    (hc : geo.primitivecount = c) (hc0 : 0 < c)
    (hn : geo.pointcount = c * n) (hn0 : 0 < n)
    (hP : geo.P.length = geo.pointcount * 12)
    (hPb : ∀ x ∈ geo.P, x < 256) (path mpw mode : String) :
    ∃ v, curves2ass geo path mpw mode false = Except.ok v ∧
      v.point_count = geo.pointcount + 2 * c ∧
      v.number_of_points_per_curve = List.replicate c (n + 2) ∧
      arnold_b85_decode (stripNL v.point_positions) =
        ((List.range c).map fun i =>
          dupFirstLast ((geo.P.drop (i * (n * 12))).take (n * 12))).flatten ∧
      ∀ i < c, (dupFirstLast ((geo.P.drop (i * (n * 12))).take (n * 12))).length =
        (n + 2) * 12 := by
  have h0 : ¬ geo.primitivecount = 0 := by omega
  have hreal : geo.pointcount / geo.primitivecount = n := by
    rw [hc, hn, Nat.mul_div_cancel_left n hc0]
  have hPlen : geo.P.length = c * (n * 12) := by rw [hP, hn]; ring
  have hslice_len : ∀ i < c,
      ((geo.P.drop (i * (n * 12))).take (n * 12)).length = n * 12 := by
    intro i hi
    have e2 : i * (n * 12) + n * 12 ≤ c * (n * 12) := by
      have h1 : (i + 1) * (n * 12) ≤ c * (n * 12) :=
        Nat.mul_le_mul_right _ (by omega)
      have h2 : (i + 1) * (n * 12) = i * (n * 12) + n * 12 := by ring
      omega
    simp only [List.length_take, List.length_drop, hPlen]
    omega
  have hdup_len : ∀ i < c,
      (dupFirstLast ((geo.P.drop (i * (n * 12))).take (n * 12))).length =
        (n + 2) * 12 := by
    intro i hi
    have hs := hslice_len i hi
    simp only [dupFirstLast, List.length_append, List.length_take,
      List.length_drop, hs]
    omega
  obtain ⟨v, hv⟩ : ∃ v, curves2ass geo path mpw mode false = Except.ok v := by
    simp only [curves2ass, if_neg h0]
    exact ⟨_, rfl⟩
  refine ⟨v, hv, ?_, ?_, ?_, hdup_len⟩ <;>
    simp only [curves2ass, if_neg h0, if_neg Bool.false_ne_true,
      Except.ok.injEq] at hv <;>
    subst hv
  · simp only [hc]
    ring
  · have hreal2 : geo.pointcount / c = n := by rw [← hc]; exact hreal
    simp only [hc, hreal2]
  · have hchunks : zipChunks (n * 12) geo.P =
        (List.range c).map fun i => (geo.P.drop (i * (n * 12))).take (n * 12) := by
      unfold zipChunks
      rw [hPlen, Nat.mul_div_cancel c (by omega)]
    have hk : geo.pointcount / geo.primitivecount * 4 * 3 = n * 12 := by
      rw [hreal]; ring
    simp only [hk, hchunks]
    have hbytes : ∀ x ∈ (((List.range c).map fun i =>
        (geo.P.drop (i * (n * 12))).take (n * 12)).map dupFirstLast).flatten,
        x < 256 := by
      intro x hx
      simp only [List.mem_flatten, List.mem_map, List.mem_range] at hx
      obtain ⟨l, ⟨a, ⟨i, hi, rfl⟩, rfl⟩, hxl⟩ := hx
      exact hPb x
        (List.mem_of_mem_drop (List.mem_of_mem_take (mem_of_mem_dupFirstLast hxl)))
    have hmod : (((List.range c).map fun i =>
        (geo.P.drop (i * (n * 12))).take (n * 12)).map dupFirstLast).flatten.length %
        4 = 0 := by
      apply flatten_length_mod4
      intro g hg
      simp only [List.mem_map, List.mem_range] at hg
      obtain ⟨a, ⟨i, hi, rfl⟩, rfl⟩ := hg
      rw [hdup_len i hi]
      omega
    rw [stripNL_re_sub_500 _ (arnold_b85_encode_no_nl _),
      arnold_b85_roundtrip _ hbytes hmod, List.map_map]
    rfl

/-- A two-curve geometry with two points per curve, used to instantiate the
tangent-duplication theorem. -/
def c2Geo : CurvesGeo :=
  { primitivecount := 2
    pointcount := 4
    P := [0, 1, 2, 3, 4, 5, 6, 7, 8, 9, 10, 11,
          12, 13, 14, 15, 16, 17, 18, 19, 20, 21, 22, 23,
          24, 25, 26, 27, 28, 29, 30, 31, 32, 33, 34, 35,
          36, 37, 38, 39, 40, 41, 42, 43, 44, 45, 46, 47]
    pprime := []
    width_point_attrib := some [0, 0, 0, 0, 0, 0, 0, 0, 0, 0, 0, 0, 0, 0, 0, 0]
    vertex_width_bytes := []
    uv_u := [0, 0, 0, 0, 0, 0, 0, 0]
    uv_v := [0, 0, 0, 0, 0, 0, 0, 0] }

theorem C2_curve_tangent_duplication_witness :
    (c2Geo.primitivecount = 2 ∧ 0 < 2 ∧ c2Geo.pointcount = 2 * 2 ∧
      c2Geo.P.length = c2Geo.pointcount * 12 ∧ ∀ x ∈ c2Geo.P, x < 256) ∧
    (∃ v, curves2ass c2Geo "/obj/hair" "0.5" "ribbon" false = Except.ok v ∧
      v.point_count = c2Geo.pointcount + 2 * 2 ∧
      v.number_of_points_per_curve = List.replicate 2 (2 + 2) ∧
      arnold_b85_decode (stripNL v.point_positions) =
        ((List.range 2).map fun i =>
          dupFirstLast ((c2Geo.P.drop (i * (2 * 12))).take (2 * 12))).flatten ∧
      ∀ i < 2, (dupFirstLast ((c2Geo.P.drop (i * (2 * 12))).take (2 * 12))).length =
        (2 + 2) * 12) :=
  ⟨⟨rfl, by decide, rfl, by decide, by decide⟩,
   C2_curve_tangent_duplication c2Geo 2 2 rfl (by decide) rfl (by decide)
     (by decide) (by decide) "/obj/hair" "0.5" "ribbon"⟩

/-! ### Claim C10 -/

/-- The declarative reading of the shot-code pattern: the string starts with a
prefix of the form `<word chars>_<3 digits>_<3 digits optionally followed by
one capital letter>_<4 digits>`, with arbitrary trailing characters. -/
def ShotCodeSpec (s : List Char) : Prop :=
  ∃ (w : List Char) (d1 d2 d3 e1 e2 e3 : Char) (u : List Char)
    (f1 f2 f3 f4 : Char) (rest : List Char),
    s = w ++ '_' :: d1 :: d2 :: d3 :: '_' :: e1 :: e2 :: e3 ::
      (u ++ '_' :: f1 :: f2 :: f3 :: f4 :: rest) ∧
    w ≠ [] ∧ (∀ ch ∈ w, isWordChar ch = true) ∧
    isDigitChar d1 = true ∧ isDigitChar d2 = true ∧ isDigitChar d3 = true ∧
    isDigitChar e1 = true ∧ isDigitChar e2 = true ∧ isDigitChar e3 = true ∧
    (u = [] ∨ ∃ uc, u = [uc] ∧ isUpperAZ uc = true) ∧
    isDigitChar f1 = true ∧ isDigitChar f2 = true ∧ isDigitChar f3 = true ∧
    isDigitChar f4 = true

theorem shotTail4_iff (l : List Char) :
    shotTail4 l = true ↔
      ∃ f1 f2 f3 f4 rest, l = '_' :: f1 :: f2 :: f3 :: f4 :: rest ∧
        isDigitChar f1 = true ∧ isDigitChar f2 = true ∧ isDigitChar f3 = true ∧
        isDigitChar f4 = true := by
  match l with
  | [] => simp [shotTail4]
  | [_] => simp [shotTail4]
  | [_, _] => simp [shotTail4]
  | [_, _, _] => simp [shotTail4]
  | [_, _, _, _] => simp [shotTail4]
  | c0 :: f1 :: f2 :: f3 :: f4 :: rest =>
    simp only [shotTail4, Bool.and_eq_true, beq_iff_eq]
    constructor
    · rintro ⟨⟨⟨⟨rfl, h1⟩, h2⟩, h3⟩, h4⟩
      exact ⟨f1, f2, f3, f4, rest, rfl, h1, h2, h3, h4⟩
    · rintro ⟨g1, g2, g3, g4, rest2, heq, h1, h2, h3, h4⟩
      simp only [List.cons.injEq] at heq
      obtain ⟨rfl, rfl, rfl, rfl, rfl, rfl⟩ := heq
      exact ⟨⟨⟨⟨rfl, h1⟩, h2⟩, h3⟩, h4⟩

theorem shotSepTail_iff (l : List Char) :
    shotSepTail l = true ↔
      ∃ (d1 d2 d3 e1 e2 e3 : Char) (u : List Char) (f1 f2 f3 f4 : Char)
        (rest : List Char),
        l = '_' :: d1 :: d2 :: d3 :: '_' :: e1 :: e2 :: e3 ::
          (u ++ '_' :: f1 :: f2 :: f3 :: f4 :: rest) ∧
        isDigitChar d1 = true ∧ isDigitChar d2 = true ∧ isDigitChar d3 = true ∧
        isDigitChar e1 = true ∧ isDigitChar e2 = true ∧ isDigitChar e3 = true ∧
        (u = [] ∨ ∃ uc, u = [uc] ∧ isUpperAZ uc = true) ∧
        isDigitChar f1 = true ∧ isDigitChar f2 = true ∧ isDigitChar f3 = true ∧
        isDigitChar f4 = true := by
  match l with
  | [] => constructor
          · intro h; simp [shotSepTail] at h
          · rintro ⟨d1, d2, d3, e1, e2, e3, u, f1, f2, f3, f4, rest, heq, -⟩
            exact absurd heq (by simp)
  | [a1] => constructor
            · intro h; simp [shotSepTail] at h
            · rintro ⟨d1, d2, d3, e1, e2, e3, u, f1, f2, f3, f4, rest, heq, -⟩
              have hlen := congrArg List.length heq
              simp only [List.length_cons, List.length_append, List.length_nil] at hlen
              omega
  | [a1, a2] => constructor
                · intro h; simp [shotSepTail] at h
                · rintro ⟨d1, d2, d3, e1, e2, e3, u, f1, f2, f3, f4, rest, heq, -⟩
                  have hlen := congrArg List.length heq
                  simp only [List.length_cons, List.length_append, List.length_nil] at hlen
                  omega
  | [a1, a2, a3] => constructor
                    · intro h; simp [shotSepTail] at h
                    · rintro ⟨d1, d2, d3, e1, e2, e3, u, f1, f2, f3, f4, rest, heq, -⟩
                      have hlen := congrArg List.length heq
                      simp only [List.length_cons, List.length_append, List.length_nil] at hlen
                      omega
  | [a1, a2, a3, a4] => constructor
                        · intro h; simp [shotSepTail] at h
                        · rintro ⟨d1, d2, d3, e1, e2, e3, u, f1, f2, f3, f4, rest,
                            heq, -⟩
                          have hlen := congrArg List.length heq
                          simp only [List.length_cons, List.length_append, List.length_nil] at hlen
                          omega
  | [a1, a2, a3, a4, a5] => constructor
                            · intro h; simp [shotSepTail] at h
                            · rintro ⟨d1, d2, d3, e1, e2, e3, u, f1, f2, f3, f4,
                                rest, heq, -⟩
                              have hlen := congrArg List.length heq
                              simp only [List.length_cons, List.length_append, List.length_nil] at hlen
                              omega
  | [a1, a2, a3, a4, a5, a6] => constructor
                                · intro h; simp [shotSepTail] at h
                                · rintro ⟨d1, d2, d3, e1, e2, e3, u, f1, f2, f3,
                                    f4, rest, heq, -⟩
                                  have hlen := congrArg List.length heq
                                  simp only [List.length_cons,
                                    List.length_append, List.length_nil] at hlen
                                  omega
  | [a1, a2, a3, a4, a5, a6, a7] => constructor
                                    · intro h; simp [shotSepTail] at h
                                    · rintro ⟨d1, d2, d3, e1, e2, e3, u, f1, f2,
                                        f3, f4, rest, heq, -⟩
                                      have hlen := congrArg List.length heq
                                      simp only [List.length_cons,
                                        List.length_append, List.length_nil] at hlen
                                      omega
  | c0 :: d1 :: d2 :: d3 :: c4 :: e1 :: e2 :: e3 :: rest =>
    simp only [shotSepTail, Bool.and_eq_true, beq_iff_eq, Bool.or_eq_true]
    constructor
    · rintro ⟨⟨⟨⟨⟨⟨⟨⟨rfl, hd1⟩, hd2⟩, hd3⟩, rfl⟩, he1⟩, he2⟩, he3⟩, htail⟩
      rcases htail with h4 | hmatch
      · obtain ⟨f1, f2, f3, f4, rest2, rfl, h1, h2, h3, h4⟩ :=
          (shotTail4_iff rest).mp h4
        exact ⟨d1, d2, d3, e1, e2, e3, [], f1, f2, f3, f4, rest2, by simp,
          hd1, hd2, hd3, he1, he2, he3, Or.inl rfl, h1, h2, h3, h4⟩
      · match rest, hmatch with
        | u0 :: rest2, hmatch =>
          rw [Bool.and_eq_true] at hmatch
          obtain ⟨hu, h4⟩ := hmatch
          obtain ⟨f1, f2, f3, f4, rest3, rfl, h1, h2, h3, h4⟩ :=
            (shotTail4_iff rest2).mp h4
          exact ⟨d1, d2, d3, e1, e2, e3, [u0], f1, f2, f3, f4, rest3, by simp,
            hd1, hd2, hd3, he1, he2, he3, Or.inr ⟨u0, rfl, hu⟩, h1, h2, h3, h4⟩
    · rintro ⟨g1, g2, g3, h1, h2, h3, u, f1, f2, f3, f4, rest2, heq, hd1, hd2,
        hd3, he1, he2, he3, hu, hf1, hf2, hf3, hf4⟩
      simp only [List.cons.injEq] at heq
      obtain ⟨rfl, rfl, rfl, rfl, rfl, rfl, rfl, rfl, hrest⟩ := heq
      refine ⟨⟨⟨⟨⟨⟨⟨⟨rfl, hd1⟩, hd2⟩, hd3⟩, rfl⟩, he1⟩, he2⟩, he3⟩, ?_⟩
      rcases hu with rfl | ⟨uc, rfl, huc⟩
      · subst hrest
        exact Or.inl ((shotTail4_iff _).mpr ⟨f1, f2, f3, f4, rest2, rfl,
          hf1, hf2, hf3, hf4⟩)
      · subst hrest
        refine Or.inr ?_
        simp only [List.cons_append, List.nil_append, Bool.and_eq_true]
        exact ⟨huc, (shotTail4_iff _).mpr ⟨f1, f2, f3, f4, rest2, rfl,
          hf1, hf2, hf3, hf4⟩⟩

theorem shotCodeMatch_iff : ∀ s : List Char, shotCodeMatch s = true ↔ ShotCodeSpec s
  | [] => by
    simp only [shotCodeMatch]
    constructor
    · intro h; exact absurd h (by simp)
    · rintro ⟨w, d1, d2, d3, e1, e2, e3, u, f1, f2, f3, f4, rest, heq, hw, -⟩
      have hlen := congrArg List.length heq
      simp only [List.length_nil, List.length_cons, List.length_append] at hlen
      omega
  | c :: rest => by
    have ih := shotCodeMatch_iff rest
    simp only [shotCodeMatch, Bool.and_eq_true, Bool.or_eq_true]
    constructor
    · rintro ⟨hc, hsep | hrec⟩
      · obtain ⟨d1, d2, d3, e1, e2, e3, u, f1, f2, f3, f4, rest2, rfl, hrest⟩ :=
          (shotSepTail_iff rest).mp hsep
        exact ⟨[c], d1, d2, d3, e1, e2, e3, u, f1, f2, f3, f4, rest2, rfl,
          by simp, by simpa using hc, hrest.1, hrest.2.1, hrest.2.2.1,
          hrest.2.2.2.1, hrest.2.2.2.2.1, hrest.2.2.2.2.2.1,
          hrest.2.2.2.2.2.2.1, hrest.2.2.2.2.2.2.2.1, hrest.2.2.2.2.2.2.2.2.1,
          hrest.2.2.2.2.2.2.2.2.2⟩
      · obtain ⟨w, d1, d2, d3, e1, e2, e3, u, f1, f2, f3, f4, rest2, heq, hw,
          hword, hrest⟩ := ih.mp hrec
        refine ⟨c :: w, d1, d2, d3, e1, e2, e3, u, f1, f2, f3, f4, rest2,
          by rw [heq]; rfl, by simp, ?_, hrest⟩
        intro ch hch
        rcases List.mem_cons.mp hch with rfl | hch
        · exact hc
        · exact hword ch hch
    · rintro ⟨w, d1, d2, d3, e1, e2, e3, u, f1, f2, f3, f4, rest2, heq, hw,
        hword, hrest⟩
      match w, hw with
      | wc :: w', _ =>
        simp only [List.cons_append, List.cons.injEq] at heq
        obtain ⟨rfl, hrest_eq⟩ := heq
        refine ⟨hword c (by simp), ?_⟩
        match w' with
        | [] =>
          simp only [List.nil_append] at hrest_eq
          subst hrest_eq
          exact Or.inl ((shotSepTail_iff _).mpr
            ⟨d1, d2, d3, e1, e2, e3, u, f1, f2, f3, f4, rest2, rfl, hrest.1,
              hrest.2.1, hrest.2.2.1, hrest.2.2.2.1, hrest.2.2.2.2.1,
              hrest.2.2.2.2.2.1, hrest.2.2.2.2.2.2.1, hrest.2.2.2.2.2.2.2.1,
              hrest.2.2.2.2.2.2.2.2.1, hrest.2.2.2.2.2.2.2.2.2⟩)
        | wc2 :: w'' =>
          subst hrest_eq
          refine Or.inr (ih.mpr ⟨wc2 :: w'', d1, d2, d3, e1, e2, e3, u, f1, f2,
            f3, f4, rest2, rfl, by simp, ?_, hrest⟩)
          intro ch hch
          exact hword ch (by simp [hch])

theorem ShotCodeSpec.append_right (s t : List Char) (h : ShotCodeSpec s) :
    ShotCodeSpec (s ++ t) := by
  obtain ⟨w, d1, d2, d3, e1, e2, e3, u, f1, f2, f3, f4, rest, heq, hrest⟩ := h
  refine ⟨w, d1, d2, d3, e1, e2, e3, u, f1, f2, f3, f4, rest ++ t, ?_, hrest⟩
  subst heq
  simp [List.append_assoc]

/-- Claim C10: `validate_shot_code` raises `ValueError` exactly when the shot
code does not begin with a prefix of the form
`<word chars>_<3 digits>_<3 digits optionally followed by one capital
letter>_<4 digits>`; since the regex is only matched at the start of the
string, a shot code with such a prefix is accepted regardless of what
characters follow it. -/
theorem C10_validate_shot_code (s : String) :
    (validate_shot_code s = Except.error PyExc.valueError ↔ ¬ ShotCodeSpec s.data) ∧
    (∀ t : String, ShotCodeSpec s.data → validate_shot_code (s ++ t) = Except.ok ()) := by
  constructor
  · unfold validate_shot_code
    by_cases h : shotCodeMatch s.data = true
    · simp only [if_pos h]
      constructor
      · intro hcontra; exact absurd hcontra (by simp)
      · intro hns; exact absurd ((shotCodeMatch_iff s.data).mp h) hns
    · simp only [if_neg h]
      constructor
      · intro _ hs; exact h ((shotCodeMatch_iff s.data).mpr hs)
      · intro _; trivial
  · intro t hs
    unfold validate_shot_code
    rw [if_pos]
    rw [String.data_append]
    exact (shotCodeMatch_iff _).mpr (ShotCodeSpec.append_right _ _ hs)

theorem C10_validate_shot_code_witness :
    ShotCodeSpec "SEQ1_001_010A_0400".data ∧
    validate_shot_code ("SEQ1_001_010A_0400" ++ "XY") = Except.ok () ∧
    validate_shot_code "bad_code" = Except.error PyExc.valueError := by
  have h1 : shotCodeMatch "SEQ1_001_010A_0400".data = true := by decide
  have hs := (shotCodeMatch_iff _).mp h1
  refine ⟨hs, (C10_validate_shot_code "SEQ1_001_010A_0400").2 "XY" hs, ?_⟩
  refine (C10_validate_shot_code "bad_code").1.mpr fun hc => ?_
  exact absurd ((shotCodeMatch_iff _).mpr hc) (by decide)

/-! ### Claim C6 -/

theorem count_partition (w : List (Nat × RefAction)) (id : Nat) :
    ((w.filter fun p => p.2 == RefAction.leave).map Prod.fst).count id +
    ((w.filter fun p => p.2 == RefAction.update).map Prod.fst).count id +
    ((w.filter fun p => p.2 == RefAction.create).map Prod.fst).count id =
    (w.map Prod.fst).count id := by
  induction w with
  | nil => simp
  | cons p w ih =>
    obtain ⟨i, a⟩ := p
    cases a
    · rw [List.filter_cons, List.filter_cons, List.filter_cons,
        if_pos (by simp), if_neg (by simp), if_neg (by simp)]
      simp only [List.map_cons, List.count_cons]
      omega
    · rw [List.filter_cons, List.filter_cons, List.filter_cons,
        if_neg (by simp), if_pos (by simp), if_neg (by simp)]
      simp only [List.map_cons, List.count_cons]
      omega
    · rw [List.filter_cons, List.filter_cons, List.filter_cons,
        if_neg (by simp), if_neg (by simp), if_pos (by simp)]
      simp only [List.map_cons, List.count_cons]
      omega

theorem mem_walkForest :
    ∀ (forest : List RefTree) (t : RefTree), t ∈ subtreesF forest →
      (t.vid, refAction t) ∈ walkForest forest
  | [], t, ht => by simp [subtreesF] at ht
  | .node i n cs :: ts, t, ht => by
    simp only [subtreesF, List.mem_cons, List.mem_append] at ht
    rcases ht with (rfl | ht) | ht
    · simp [walkForest, walkTree, RefTree.vid]
    · have := mem_walkForest cs t ht
      simp [walkForest, walkTree, this]
    · have := mem_walkForest ts t ht
      simp [walkForest, this]

theorem walkTree_sublist :
    ∀ (forest : List RefTree) (t : RefTree), t ∈ subtreesF forest →
      List.Sublist (walkTree t) (walkForest forest)
  | [], t, ht => by simp [subtreesF] at ht
  | .node i n cs :: ts, t, ht => by
    simp only [subtreesF, List.mem_cons, List.mem_append] at ht
    rcases ht with (rfl | ht) | ht
    · rw [walkForest]
      exact List.sublist_append_left _ _
    · have h1 := walkTree_sublist cs t ht
      have h2 : List.Sublist (walkForest cs) (walkTree (RefTree.node i n cs)) := by
        rw [walkTree]
        exact List.sublist_append_left _ _
      have h3 : List.Sublist (walkTree (RefTree.node i n cs))
          (walkForest (RefTree.node i n cs :: ts)) := by
        rw [walkForest]
        exact List.sublist_append_left _ _
      exact (h1.trans h2).trans h3
    · have h1 := walkTree_sublist ts t ht
      have h2 : List.Sublist (walkForest ts) (walkForest (RefTree.node i n cs :: ts)) := by
        rw [walkForest]
        exact List.sublist_append_right _ _
      exact h1.trans h2

theorem anyNonLeave_of_mem :
    ∀ (cs : List RefTree) (c : RefTree), c ∈ cs →
      refAction c ≠ RefAction.leave → anyNonLeave cs = true
  | [], c, hmem, _ => by simp at hmem
  | c' :: cs', c, hmem, hne => by
    rcases List.mem_cons.mp hmem with rfl | hmem'
    · rw [anyNonLeave]
      cases h : refAction c
      · exact absurd h hne
      · rfl
      · rfl
    · rw [anyNonLeave]
      cases h : refAction c'
      · exact anyNonLeave_of_mem cs' c hmem' hne
      · rfl
      · rfl

theorem refAction_create_of_child (t c : RefTree) (hc : c ∈ t.children)
    (hne : refAction c ≠ RefAction.leave) : refAction t = RefAction.create := by
  obtain ⟨i, n, cs⟩ := t
  simp only [RefTree.children] at hc
  rw [refAction, if_pos (anyNonLeave_of_mem cs c hc hne)]

theorem refAction_update_newer (t : RefTree)
    (h : refAction t = RefAction.update) : t.isNewer = true := by
  obtain ⟨i, n, cs⟩ := t
  rw [refAction] at h
  by_cases h1 : anyNonLeave cs = true
  · rw [if_pos h1] at h
    exact absurd h (by simp)
  · rw [if_neg h1] at h
    cases n with
    | false => simp at h
    | true => rfl

theorem refAction_leave_not_newer (t : RefTree)
    (h : refAction t = RefAction.leave) : t.isNewer = false := by
  obtain ⟨i, n, cs⟩ := t
  rw [refAction] at h
  by_cases h1 : anyNonLeave cs = true
  · rw [if_pos h1] at h
    exact absurd h (by simp)
  · rw [if_neg h1] at h
    cases n with
    | false => rfl
    | true => simp at h

theorem mem_action_list (w : List (Nat × RefAction)) (i : Nat) (a : RefAction)
    (h : (i, a) ∈ w) : i ∈ (w.filter fun p => p.2 == a).map Prod.fst :=
  List.mem_map.mpr ⟨(i, a), List.mem_filter.mpr ⟨h, by simp⟩, rfl⟩

/-- Claim C6: `check_referenced_versions` returns a record with exactly the
keys `leave`, `update` and `create`; every referenced version appears in
exactly one of the three lists (their occurrence counts sum to the occurrence
count in the full post-order walk); a version classified `update` has a
strictly newer published revision and one classified `leave` has none; a
version one of whose deeper references is slated for `update` or `create` is
itself put in `create` (so membership in `create` propagates transitively to
every ancestor); and each list is ordered from the deepest reference to the
shallowest: any strict descendant with the same classification occurs before
its ancestor. -/
theorem C6_check_referenced_versions (forest : List RefTree) :
    (∀ id : Nat,
      (check_referenced_versions forest).leave.count id +
      (check_referenced_versions forest).update.count id +
      (check_referenced_versions forest).create.count id =
      ((walkForest forest).map Prod.fst).count id) ∧
    (∀ t ∈ subtreesF forest,
      (refAction t = RefAction.update → t.isNewer = true ∧
        t.vid ∈ (check_referenced_versions forest).update) ∧
      (refAction t = RefAction.leave → t.isNewer = false ∧
        t.vid ∈ (check_referenced_versions forest).leave) ∧
      (refAction t = RefAction.create →
        t.vid ∈ (check_referenced_versions forest).create) ∧
      (∀ c ∈ t.children, refAction c ≠ RefAction.leave →
        refAction t = RefAction.create)) ∧
    (∀ t ∈ subtreesF forest, ∀ u ∈ subtreesF t.children,
      refAction u = refAction t →
      [u.vid, t.vid].Sublist
        (match refAction t with
         | RefAction.leave => (check_referenced_versions forest).leave
         | RefAction.update => (check_referenced_versions forest).update
         | RefAction.create => (check_referenced_versions forest).create)) := by
  refine ⟨?_, ?_, ?_⟩
  · intro id
    simp only [check_referenced_versions]
    exact count_partition (walkForest forest) id
  · intro t ht
    have hmem := mem_walkForest forest t ht
    refine ⟨?_, ?_, ?_, fun c hc hne => refAction_create_of_child t c hc hne⟩
    · intro ha
      rw [ha] at hmem
      exact ⟨refAction_update_newer t ha, by
        simp only [check_referenced_versions]
        exact mem_action_list _ _ _ hmem⟩
    · intro ha
      rw [ha] at hmem
      exact ⟨refAction_leave_not_newer t ha, by
        simp only [check_referenced_versions]
        exact mem_action_list _ _ _ hmem⟩
    · intro ha
      rw [ha] at hmem
      simp only [check_referenced_versions]
      exact mem_action_list _ _ _ hmem
  · intro t ht u hu hact
    have h1 : (u.vid, refAction u) ∈ walkForest t.children :=
      mem_walkForest t.children u hu
    have h2 : [(u.vid, refAction u), (t.vid, refAction t)].Sublist (walkTree t) := by
      obtain ⟨i, n, cs⟩ := t
      rw [walkTree]
      exact List.Sublist.append (List.singleton_sublist.mpr h1)
        (List.Sublist.refl _)
    have h4 := h2.trans (walkTree_sublist forest t ht)
    have h5 := (h4.filter fun p => p.2 == refAction t).map Prod.fst
    rw [List.filter_cons, List.filter_cons] at h5
    simp only [hact, beq_self_eq_true, if_pos, List.filter_nil, List.map_cons,
      List.map_nil] at h5
    cases hA : refAction t <;>
      rw [hA] at h5 <;>
      simpa only [check_referenced_versions] using h5

theorem C6_check_referenced_versions_witness :
    RefTree.node 2 true [] ∈
      subtreesF [RefTree.node 1 false [RefTree.node 2 true []]] ∧
    refAction (RefTree.node 2 true []) = RefAction.update ∧
    (RefTree.node 2 true []).isNewer = true ∧
    (2 : Nat) ∈
      (check_referenced_versions [RefTree.node 1 false [RefTree.node 2 true []]]).update := by
  have hmem : RefTree.node 2 true [] ∈
      subtreesF [RefTree.node 1 false [RefTree.node 2 true []]] := by
    simp [subtreesF]
  have hact : refAction (RefTree.node 2 true []) = RefAction.update := by
    simp [refAction, anyNonLeave]
  have h :=
    ((C6_check_referenced_versions
      [RefTree.node 1 false [RefTree.node 2 true []]]).2.1
      (RefTree.node 2 true []) hmem).1 hact
  exact ⟨hmem, hact, h.1, h.2⟩

end Anima
